import Mathlib

/-
Verification development for a leveraged yield-farming simulator.

The Python source is shallowly embedded over the real numbers: machine
floats become elements of ℝ, fallible operations (a raised exception)
become `Except PyError`, and the mutable per-epoch state of the
simulation loop becomes explicit state passing.  Each definition below
mirrors one function of the source, keeping its name and the order of
its computations.
-/

/-- The exception kinds the embedded code can raise. -/
inductive PyError : Type
  | valueError : PyError
  | keyError : PyError
  | typeError : PyError
  | nameError : PyError
deriving DecidableEq, Repr

/-- Exception propagation: run `x`; a raised exception aborts the
computation, a value feeds the continuation.  This is the sequencing of
the embedded Python statements. -/
def pyBind {α β : Type} (x : Except PyError α)
    (f : α → Except PyError β) : Except PyError β :=
  match x with
  | .error e => .error e
  | .ok v => f v

/-- A Python value passed positionally to a constructor: either a float
or a callable (the `rewards_fn` argument). -/
inductive PyVal : Type
  | float (x : ℝ) : PyVal
  | callable : PyVal

/-- One row of the exogenous input table.  `token0_price` and
`token1_price` are required columns; the remaining columns are optional
(`none` models an absent column). -/
structure Row : Type where
  token0_price : ℝ
  token1_price : ℝ
  reward_token_price : Option ℝ
  apy_trading_fee : Option ℝ
  apy_reward : Option ℝ
  apy_borrow_token0 : Option ℝ
  apy_borrow_token1 : Option ℝ

/-- Column fill of the `simulate` preamble: a present column is kept,
an absent column is filled from the scalar engine argument when that
argument was supplied. -/
def fillCol (col param : Option ℝ) : Option ℝ :=
  match col with
  | some v => some v
  | none => param

/-- The preamble of `simulate`: add any optional missing fields from the
scalar arguments. -/
def fillRow (reward_token_price apy_trading_fee apy_reward
    apy_borrow_token0 apy_borrow_token1 : Option ℝ) (row : Row) : Row :=
  { row with
    reward_token_price := fillCol row.reward_token_price reward_token_price
    apy_trading_fee := fillCol row.apy_trading_fee apy_trading_fee
    apy_reward := fillCol row.apy_reward apy_reward
    apy_borrow_token0 := fillCol row.apy_borrow_token0 apy_borrow_token0
    apy_borrow_token1 := fillCol row.apy_borrow_token1 apy_borrow_token1 }

/-- `util.iloss_amt(k, r)`: constant-product repricing.  The source
computes `x = (k * r) ** 0.5`, `y = (k / r) ** 0.5` and returns
`[x, y]`; the first element is assigned to token0, the second to
token1. -/
noncomputable def iloss_amt (k r : ℝ) : ℝ × ℝ :=
  (Real.sqrt (k * r), Real.sqrt (k / r))

/-- Result of `strategies.core.add_liquidity`: pool supply and debt per
token, and the gas fees of the opening transactions. -/
structure LiquidityResult : Type where
  token_supply : ℝ × ℝ
  token_debt : ℝ × ℝ
  fees : ℝ

/-- `strategies.core.add_liquidity`: open a leveraged LP position.
Branches on the leverage exactly as the source does (`== 1`, `== 2`,
`> 2`, otherwise `raise ValueError`). -/
noncomputable def add_liquidity (capital leverage : ℝ) (pool_prices : ℝ × ℝ)
    (fee_swap fee_gas : ℝ) : Except PyError LiquidityResult :=
  let token0_price := pool_prices.1
  let token1_price := pool_prices.2
  let capital := capital * (1.0 - fee_swap)
  if leverage = 1 then
    let token0_supply := (capital / 2) / token0_price
    let token1_supply := (capital / 2) / token1_price
    .ok ⟨(token0_supply, token1_supply), (0, 0), fee_gas⟩
  else if leverage = 2 then
    let token1_debt := capital / token1_price
    let token1_supply := token1_debt
    let token0_supply := capital / token0_price
    .ok ⟨(token0_supply, token1_supply), (0, token1_debt), 4 * fee_gas⟩
  else if 2 < leverage then
    let token0_supply_value := 0.5 * leverage * capital
    let token1_supply_value := 0.5 * leverage * capital
    let token0_supply := token0_supply_value / token0_price
    let token1_supply := token1_supply_value / token1_price
    let multiplier := leverage - 1
    let token0_frac := 1 / (leverage / (leverage - 2) + 1)
    let token1_frac := 1.0 - token0_frac
    let token0_debt := capital * token0_frac * multiplier / token0_price
    let token1_debt := capital * token1_frac * multiplier / token1_price
    .ok ⟨(token0_supply, token1_supply), (token0_debt, token1_debt), 6 * fee_gas⟩
  else
    .error .valueError

/-- Result of `strategies.core.remove_liquidity`: what remains of the
position, the cash proceeds, and the gas fees of the two swaps. -/
structure RemoveResult : Type where
  token_supply_remaining : ℝ × ℝ
  token_debt_remaining : ℝ × ℝ
  cash : ℝ
  fees : ℝ

/-- `strategies.core.remove_liquidity`: fully or partially close an LP
position; `amount` is the fraction of equity sold off. -/
noncomputable def remove_liquidity (token_supply token_debt : ℝ × ℝ)
    (pool_prices : ℝ × ℝ) (amount fee_swap fee_gas : ℝ) : RemoveResult :=
  let token0_price := pool_prices.1
  let token1_price := pool_prices.2
  let token0_supply_remaining := token_supply.1 * (1.0 - amount)
  let token1_supply_remaining := token_supply.2 * (1.0 - amount)
  let token0_debt_remaining := token_debt.1 * (1.0 - amount)
  let token1_debt_remaining := token_debt.2 * (1.0 - amount)
  let token0_equity := token_supply.1 - token_debt.1
  let token0_sell := token0_equity * amount
  let token0_cash := token0_sell * token0_price * (1.0 - fee_swap)
  let token1_equity := token_supply.2 - token_debt.2
  let token1_sell := token1_equity * amount
  let token1_cash := token1_sell * token1_price * (1.0 - fee_swap)
  ⟨(token0_supply_remaining, token1_supply_remaining),
   (token0_debt_remaining, token1_debt_remaining),
   token0_cash + token1_cash, fee_gas + fee_gas⟩

/-- `strategies.rewards.sell_rewards`: sell a fraction of the reward
tokens to cash; a non-positive fraction is a no-op. -/
noncomputable def sell_rewards (reward_tokens reward_price : ℝ)
    (pool_tokens : ℝ × ℝ) (amount fee_swap fee_gas : ℝ) :
    ℝ × (ℝ × ℝ) × ℝ × ℝ :=
  if amount ≤ 0 then (reward_tokens, pool_tokens, 0, 0)
  else
    let reward_tokens_sell := amount * reward_tokens
    let reward_tokens' := reward_tokens - reward_tokens_sell
    let reward_tokens_sell_after_fees := reward_tokens_sell * (1.0 - fee_swap)
    let cash := reward_tokens_sell_after_fees * reward_price
    (reward_tokens', pool_tokens, cash, fee_gas * 1.0)

/-- `RewardsStrategy.__init__(self, sell_amount)`: the base-class
initializer accepts exactly one positional argument.  The call is
modeled with Python's arity check: any other number of positional
arguments raises `TypeError`. -/
def RewardsStrategy.initCall (args : List PyVal) : Except PyError PyVal :=
  match args with
  | [sell_amount] => .ok sell_amount
  | _ => .error .typeError

/-- `SellRewardsStrategy.__init__(self, sell_amount)`: forwards the one
argument to the base initializer. -/
def SellRewardsStrategy.init (sell_amount : ℝ) : Except PyError PyVal :=
  RewardsStrategy.initCall [PyVal.float sell_amount]

/-- `CompoundRewardsStrategy.__init__(self, rewards_fn, sell_amount)`:
forwards two positional arguments to the base initializer. -/
def CompoundRewardsStrategy.init (rewards_fn : PyVal) (sell_amount : ℝ) :
    Except PyError PyVal :=
  RewardsStrategy.initCall [rewards_fn, PyVal.float sell_amount]

/-- The signature of a rewards strategy's `execute`: reward tokens,
reward price, pool tokens, pool prices, swap fee, gas fee, returning
(reward tokens remaining, pool token increments, cash, fees). -/
abbrev RewardsFn : Type :=
  ℝ → ℝ → ℝ × ℝ → ℝ × ℝ → ℝ → ℝ → ℝ × (ℝ × ℝ) × ℝ × ℝ

/-- `SellRewardsStrategy.execute`: sell the configured fraction on every
epoch via `sell_rewards`. -/
noncomputable def SellRewardsStrategy.execute (sell_amount : ℝ) : RewardsFn :=
  fun reward_tokens reward_price pool_tokens _pool_prices fee_swap fee_gas =>
    sell_rewards reward_tokens reward_price pool_tokens sell_amount fee_swap fee_gas

/-- What a trading strategy's `execute` returns: the (possibly traded)
supply and debt, the output cash, the fees of any trades, the metadata
dictionary (`price_delta` when the strategy records one), and the
strategy's own mutable state after the call. -/
structure TradeResult (σ : Type) : Type where
  supply : ℝ × ℝ
  debt : ℝ × ℝ
  cash : ℝ
  fees : ℝ
  metadata : Option ℝ
  state : σ

/-- The signature of a trading strategy's `execute`, with its private
mutable state made explicit.  The input table slice handed over by the
driver is represented by its last row, the current row, the only part
the built-in strategies read (`df.iloc[-1]`). -/
abbrev TradingStrategyFn (σ : Type) : Type :=
  σ → ℝ × ℝ → ℝ × ℝ → Row → ℝ → Except PyError (TradeResult σ)

/-- `HODLStrategy.execute`: pass-through, no change, empty metadata. -/
def HODLStrategy.execute : TradingStrategyFn Unit :=
  fun _ token_supply token_debt _ input_cash =>
    .ok ⟨token_supply, token_debt, input_cash, 0, none, ()⟩

/-- The constructor parameters of `RebalanceStrategy` other than the
price anchor, which is the strategy's mutable state. -/
structure RebalanceConfig : Type where
  threshold : ℝ
  leverage : ℝ
  amount : ℝ
  fee_swap : ℝ
  fee_gas : ℝ

/-- `RebalanceStrategy.execute`: record the deviation from the anchor,
and when it exceeds the threshold close the position and reopen it from
the close proceeds, moving the anchor to the current price.  The state
argument is `self._price_anchor`.  Note the source rebinds
`token_supply`/`token_debt` to the reopened position, so the remainder
kept aside by `remove_liquidity` is dropped, and the output cash is the
input cash in both branches. -/
noncomputable def RebalanceStrategy.execute (cfg : RebalanceConfig) :
    TradingStrategyFn ℝ :=
  fun price_anchor token_supply token_debt row input_cash =>
    let token0_price := row.token0_price
    let token1_price := row.token1_price
    let pool_prices := (token0_price, token1_price)
    let output_cash := input_cash
    let price_delta := |token1_price - price_anchor| / price_anchor
    if cfg.threshold < price_delta then
      let closed := remove_liquidity token_supply token_debt pool_prices
        cfg.amount cfg.fee_swap cfg.fee_gas
      pyBind (add_liquidity closed.cash cfg.leverage pool_prices
          cfg.fee_swap cfg.fee_gas) fun opened =>
        .ok ⟨opened.token_supply, opened.token_debt, output_cash,
             closed.fees + opened.fees, some price_delta, token1_price⟩
    else
      .ok ⟨token_supply, token_debt, output_cash, 0, some price_delta,
           price_anchor⟩

/-- The derived fields of one epoch's output record that this
development reasons about (the source records a superset; the purely
informational ratio metrics built from these fields are omitted). -/
structure EpochRecord : Type where
  token0_supply_open : ℝ
  token1_supply_open : ℝ
  position_pool_open_dollars : ℝ
  token0_earnings : ℝ
  token1_earnings : ℝ
  reward_token_earnings : ℝ
  token0_supply_close : ℝ
  token1_supply_close : ℝ
  token0_debt_close : ℝ
  token1_debt_close : ℝ
  pool_value : ℝ
  cash_value : ℝ
  rewards_value : ℝ
  fees_value : ℝ
  position_value : ℝ
  debt_value : ℝ
  pool_equity : ℝ
  equity_value : ℝ
  profit_value : ℝ
  iloss : ℝ
  trade_event : Bool
  price_delta : Option ℝ

/-- The state the simulation loop threads from one epoch to the next:
last closing supplies and debts, accumulated cash, fees and reward
tokens, and the trading strategy's private state. -/
structure SimState (σ : Type) : Type where
  s0 : ℝ
  s1 : ℝ
  d0 : ℝ
  d1 : ℝ
  cash : ℝ
  fees : ℝ
  rewards : ℝ
  strat : σ

/-- `row["name"]` for an optional column: raises `KeyError` when the
column is absent. -/
def colVal (x : Option ℝ) : Except PyError ℝ :=
  match x with
  | some v => .ok v
  | none => .error .keyError

/-- Arithmetic on an optional scalar engine argument: raises
`TypeError` when the argument is `None` (as `None * 1.0` does). -/
def argVal (x : Option ℝ) : Except PyError ℝ :=
  match x with
  | some v => .ok v
  | none => .error .typeError

/-- One iteration of the `simulate` loop.  Note two faithfulness points:
the borrow APYs used for debt compounding are the run-level scalar
arguments `apy_borrow_token0`/`apy_borrow_token1` (the loop never
rebinds them from the row, unlike the trading-fee and reward APYs), and
`trade_event` is the driver's comparison of the strategy's input and
output supply/debt tuples. -/
noncomputable def epochStep {σ : Type} (strategy : TradingStrategyFn σ)
    (rewards_cls : RewardsFn) (initial_cap ratio_initial fee_swap fee_gas : ℝ)
    (apy_borrow_token0 apy_borrow_token1 : Option ℝ)
    (st : SimState σ) (row : Row) :
    Except PyError (SimState σ × EpochRecord) :=
  let token0_price := row.token0_price
  let token1_price := row.token1_price
  pyBind (colVal row.reward_token_price) fun reward_token_price =>
  let ratio := row.token1_price / row.token0_price
  pyBind (colVal row.apy_trading_fee) fun apy_trading_fee =>
  pyBind (colVal row.apy_reward) fun apy_reward =>
  let tk := st.s0 * st.s1
  let opened := iloss_amt tk ratio
  let token0_supply_open := opened.1
  let token1_supply_open := opened.2
  let position_pool_open_dollars :=
    token0_price * token0_supply_open + token1_price * token1_supply_open
  let token0_earnings := token0_supply_open * (apy_trading_fee / 365.25)
  let token1_earnings := token1_supply_open * (apy_trading_fee / 365.25)
  let token0_supply_cur := token0_supply_open + token0_earnings
  let token1_supply_cur := token1_supply_open + token1_earnings
  let reward_earnings_dollars :=
    position_pool_open_dollars * apy_reward / 365.25
  let reward_token_earnings := reward_earnings_dollars / reward_token_price
  pyBind (argVal apy_borrow_token0) fun ab0 =>
  pyBind (argVal apy_borrow_token1) fun ab1 =>
  let token0_debt_cur := st.d0 * Real.exp (ab0 * 1.0 / 365.25)
  let token1_debt_cur := st.d1 * Real.exp (ab1 * 1.0 / 365.25)
  let rw := rewards_cls reward_token_earnings reward_token_price (0, 0)
    (token0_price, token1_price) fee_swap fee_gas
  let reward_tokens_remaining := rw.1
  let pool_tokens_from_rewards := rw.2.1
  let cash_rewards := rw.2.2.1
  let fees_rewards := rw.2.2.2
  let token0_supply_cur := token0_supply_cur + pool_tokens_from_rewards.1
  let token1_supply_cur := token1_supply_cur + pool_tokens_from_rewards.2
  let cash_in := st.cash + cash_rewards
  let token_supply_in := (token0_supply_cur, token1_supply_cur)
  let token_debt_in := (token0_debt_cur, token1_debt_cur)
  pyBind (strategy st.strat token_supply_in token_debt_in row cash_in)
    fun tr =>
  let trade_occurred : Bool :=
    if token_supply_in ≠ tr.supply ∨ token_debt_in ≠ tr.debt then true
    else false
  let token0_supply_close := tr.supply.1
  let token1_supply_close := tr.supply.2
  let token0_debt_close := tr.debt.1
  let token1_debt_close := tr.debt.2
  let cash_accum := tr.cash
  let rewards_accum := st.rewards + reward_tokens_remaining
  let fees_accum := st.fees + fees_rewards + tr.fees
  let token0_debt_value := token0_debt_close * token0_price
  let token1_debt_value := token1_debt_close * token1_price
  let pool_value :=
    token0_price * token0_supply_close + token1_price * token1_supply_close
  let cash_value := cash_accum
  let fees_value := fees_accum
  let rewards_value := rewards_accum * reward_token_price
  let position_value := pool_value + rewards_value + cash_value - fees_value
  let debt_value := token0_debt_value + token1_debt_value
  let pool_equity := pool_value - debt_value
  let equity_value := position_value - debt_value
  let profit_value := equity_value - initial_cap
  let rel_ratio := ratio_initial / ratio
  let iloss := 2 * (Real.sqrt rel_ratio / (1 + rel_ratio)) - 1
  .ok (⟨token0_supply_close, token1_supply_close,
        token0_debt_close, token1_debt_close,
        cash_accum, fees_accum, rewards_accum, tr.state⟩,
       ⟨token0_supply_open, token1_supply_open, position_pool_open_dollars,
        token0_earnings, token1_earnings, reward_token_earnings,
        token0_supply_close, token1_supply_close,
        token0_debt_close, token1_debt_close,
        pool_value, cash_value, rewards_value, fees_value, position_value,
        debt_value, pool_equity, equity_value, profit_value, iloss,
        trade_occurred, tr.metadata⟩)

/-- The epoch loop of `simulate`: fold `epochStep` over the rows,
collecting one record per row. -/
noncomputable def runLoop {σ : Type} (strategy : TradingStrategyFn σ)
    (rewards_cls : RewardsFn) (initial_cap ratio_initial fee_swap fee_gas : ℝ)
    (apy_borrow_token0 apy_borrow_token1 : Option ℝ) :
    SimState σ → List Row → Except PyError (List EpochRecord × SimState σ)
  | st, [] => .ok ([], st)
  | st, row :: rest =>
    pyBind (epochStep strategy rewards_cls initial_cap ratio_initial fee_swap
        fee_gas apy_borrow_token0 apy_borrow_token1 st row) fun out =>
    pyBind (runLoop strategy rewards_cls initial_cap ratio_initial fee_swap
        fee_gas apy_borrow_token0 apy_borrow_token1 out.1 rest) fun rest_out =>
    .ok (out.2 :: rest_out.1, rest_out.2)

/-- What the pre-loop phase of `simulate` establishes: the initial price
ratio and the state the loop starts from. -/
structure InitResult (σ : Type) : Type where
  price0_initial : ℝ
  price1_initial : ℝ
  ratio_initial : ℝ
  state : SimState σ

/-- The pre-loop phase of `simulate`: read the first row's prices,
optionally open the position, and seed the accumulators.  With
`open_on_start = false` the source reads the unbound local `fees_open`
in `fees_accum = fees_open`, a `NameError`. -/
noncomputable def simInit {σ : Type} (rows : List Row)
    (initial_cap leverage fee_swap fee_gas : ℝ) (open_on_start : Bool)
    (strat0 : σ) : Except PyError (InitResult σ) :=
  match rows with
  | [] => .error .keyError
  | first :: _ =>
    let price0_initial := first.token0_price
    let price1_initial := first.token1_price
    let ratio_initial := price1_initial / price0_initial
    if open_on_start then
      pyBind (add_liquidity initial_cap leverage
          (price0_initial, price1_initial) fee_swap fee_gas) fun lr =>
        .ok ⟨price0_initial, price1_initial, ratio_initial,
             ⟨lr.token_supply.1, lr.token_supply.2,
              lr.token_debt.1, lr.token_debt.2, 0, lr.fees, 0, strat0⟩⟩
    else
      .error .nameError

/-- `simulation.simulate`: fill the optional columns from the scalar
arguments, run the pre-loop initialization, then the epoch loop,
returning the per-epoch records.  An exception anywhere yields no
records at all. -/
noncomputable def simulate {σ : Type} (strategy : TradingStrategyFn σ)
    (rewards_cls : RewardsFn) (rows : List Row)
    (initial_cap leverage fee_gas fee_swap : ℝ)
    (reward_token_price apy_trading_fee apy_reward
     apy_borrow_token0 apy_borrow_token1 : Option ℝ)
    (open_on_start : Bool) (strat0 : σ) :
    Except PyError (List EpochRecord) :=
  let filled := rows.map (fillRow reward_token_price apy_trading_fee
    apy_reward apy_borrow_token0 apy_borrow_token1)
  pyBind (simInit filled initial_cap leverage fee_swap fee_gas open_on_start
      strat0) fun ini =>
  pyBind (runLoop strategy rewards_cls initial_cap ini.ratio_initial fee_swap
      fee_gas apy_borrow_token0 apy_borrow_token1 ini.state filled)
    fun loop_out =>
  .ok loop_out.1

/-- Projection of a run's outcome onto the `profit_value` column. -/
noncomputable def profitColumn (out : Except PyError (List EpochRecord)) :
    Option (List ℝ) :=
  (out.toOption).map (List.map EpochRecord.profit_value)

/-- Projection of a run's outcome onto the `token1_debt_close` column. -/
noncomputable def debt1Column (out : Except PyError (List EpochRecord)) :
    Option (List ℝ) :=
  (out.toOption).map (List.map EpochRecord.token1_debt_close)

/-- Projection of a run's outcome onto the `trade_event` column. -/
noncomputable def tradeEventColumn (out : Except PyError (List EpochRecord)) :
    Option (List Bool) :=
  (out.toOption).map (List.map EpochRecord.trade_event)

/-- Projection of a run's outcome onto the recorded strategy metadata
(`price_delta`) column. -/
noncomputable def priceDeltaColumn (out : Except PyError (List EpochRecord)) :
    Option (List (Option ℝ)) :=
  (out.toOption).map (List.map EpochRecord.price_delta)

/-- The epoch record produced when prices are constant, all APYs are
zero and the trading strategy is pass-through: the epoch closes on the
opening supplies and debts, with the given accumulated cash, fees and
reward tokens. -/
def steadyRecord (capital p0 p1 rtp s0 s1 d0 d1 cash fees rewards : ℝ) :
    EpochRecord :=
  ⟨s0, s1, p0 * s0 + p1 * s1, 0, 0, 0, s0, s1, d0, d1,
   p0 * s0 + p1 * s1, cash, rewards * rtp, fees,
   p0 * s0 + p1 * s1 + rewards * rtp + cash - fees,
   d0 * p0 + d1 * p1,
   p0 * s0 + p1 * s1 - (d0 * p0 + d1 * p1),
   p0 * s0 + p1 * s1 + rewards * rtp + cash - fees - (d0 * p0 + d1 * p1),
   p0 * s0 + p1 * s1 + rewards * rtp + cash - fees - (d0 * p0 + d1 * p1) -
     capital,
   0, false, none⟩

/-- A constant-conditions input row: prices `p0`, `p1`, optional reward
token price column, and all four APY columns present and zero. -/
def zeroApyRow (p0 p1 : ℝ) (rtp : Option ℝ) : Row :=
  ⟨p0, p1, rtp, some 0, some 0, some 0, some 0⟩

/-- A row whose borrow-APY columns carry the (nonzero) value 1 while
every other APY is zero: the input for the borrow-APY claims. -/
def borrowApyRow : Row :=
  ⟨1, 1, some 1, some 0, some 0, some 1, some 1⟩

/-- The current row used by the rebalance witnesses: token1 price 2,
i.e. a 100% deviation from an anchor of 1. -/
def rebalanceRow : Row :=
  ⟨1, 2, some 1, some 0, some 0, some 0, some 0⟩

/-- A value feeds the continuation. -/
theorem pyBind_ok {α β : Type} (v : α) (f : α → Except PyError β) :
    pyBind (Except.ok v) f = f v := rfl

/-- An exception aborts the computation. -/
theorem pyBind_error {α β : Type} (e : PyError)
    (f : α → Except PyError β) :
    pyBind (Except.error e : Except PyError α) f = .error e := rfl

/-- C9: constructing the compound-rewards strategy always fails: its
initializer forwards two positional arguments to the base initializer,
which accepts only one, so the call raises `TypeError` for every
argument pair; by contrast the sell-rewards initializer succeeds. -/
theorem claim9_compound_init_always_type_error :
    (∀ (rewards_fn : PyVal) (sell_amount : ℝ),
      CompoundRewardsStrategy.init rewards_fn sell_amount =
        .error .typeError) ∧
    (∀ sell_amount : ℝ,
      SellRewardsStrategy.init sell_amount = .ok (.float sell_amount)) :=
  ⟨fun _ _ => rfl, fun _ => rfl⟩

/-- C1, counterexample: at `k = 1`, `r = 4` the repricing does not
return `(sqrt (k / r), sqrt (k * r))` as claimed: the source assigns
`(k * r) ** 0.5` to the first (token0) slot, so the pair is
`(2, 1 / 2)`, not `(1 / 2, 2)`. -/
theorem claim1_counterexample :
    iloss_amt 1 4 ≠ (Real.sqrt ((1 : ℝ) / 4), Real.sqrt ((1 : ℝ) * 4)) := by
  intro h
  have h1 : Real.sqrt ((1 : ℝ) * 4) = Real.sqrt ((1 : ℝ) / 4) :=
    congrArg Prod.fst h
  have h4 : Real.sqrt ((1 : ℝ) * 4) = 2 := by
    rw [show ((1 : ℝ) * 4) = 2 ^ 2 by norm_num,
      Real.sqrt_sq (by norm_num : (0 : ℝ) ≤ 2)]
  have hq : Real.sqrt ((1 : ℝ) / 4) = 1 / 2 := by
    rw [show ((1 : ℝ) / 4) = (1 / 2 : ℝ) ^ 2 by norm_num,
      Real.sqrt_sq (by norm_num : (0 : ℝ) ≤ 1 / 2)]
  rw [h4, hq] at h1
  norm_num at h1

/-- C1, amended: for every `k > 0` and `r > 0` the repricing returns
`(sqrt (k * r), sqrt (k / r))` in `(token0, token1)` order — the
reverse of the claimed order — and this choice does satisfy the
constant-product invariant: the product of the returned supplies is `k`
and their ratio is `r`. -/
theorem claim1_amended_repricing (k r : ℝ) (hk : 0 < k) (hr : 0 < r) :
    iloss_amt k r = (Real.sqrt (k * r), Real.sqrt (k / r)) ∧
    (iloss_amt k r).1 * (iloss_amt k r).2 = k ∧
    (iloss_amt k r).1 / (iloss_amt k r).2 = r := by
  have hsk : (0 : ℝ) < Real.sqrt k := Real.sqrt_pos.mpr hk
  have hsr : (0 : ℝ) < Real.sqrt r := Real.sqrt_pos.mpr hr
  have h1 : Real.sqrt k * Real.sqrt k = k := Real.mul_self_sqrt hk.le
  have h2 : Real.sqrt r * Real.sqrt r = r := Real.mul_self_sqrt hr.le
  refine ⟨rfl, ?_, ?_⟩
  · show Real.sqrt (k * r) * Real.sqrt (k / r) = k
    rw [Real.sqrt_mul hk.le, Real.sqrt_div hk.le]
    field_simp
    linear_combination Real.sqrt r * h1
  · show Real.sqrt (k * r) / Real.sqrt (k / r) = r
    rw [Real.sqrt_mul hk.le, Real.sqrt_div hk.le]
    field_simp
    linear_combination Real.sqrt k * h2

/-- Witness for C1's amended theorem at `k = 1`, `r = 4`. -/
theorem claim1_witness :
    (0 : ℝ) < 1 ∧ (0 : ℝ) < 4 ∧
    (iloss_amt 1 4 = (Real.sqrt ((1 : ℝ) * 4), Real.sqrt ((1 : ℝ) / 4)) ∧
     (iloss_amt 1 4).1 * (iloss_amt 1 4).2 = 1 ∧
     (iloss_amt 1 4).1 / (iloss_amt 1 4).2 = 4) :=
  ⟨by norm_num, by norm_num,
   claim1_amended_repricing 1 4 (by norm_num) (by norm_num)⟩

/-- C4: the three leverage branches of `add_liquidity`.  With post-fee
capital `c = capital * (1 - fee_swap)`: leverage 1 gives zero debt and
fee `fee_gas`; leverage 2 gives zero token0 debt, token1 debt `c / p1`
equal to the token1 supply, token0 supply `c / p0`, and fee
`4 * fee_gas`; leverage `L > 2` gives supply value `L * c` split evenly
by value, debt value `(L - 1) * c` with token0 share
`1 / (L / (L - 2) + 1)`, and fee `6 * fee_gas`; and the documented 3X
example on $100 principal with zero swap fee borrows $50 of token0 and
$150 of token1. -/
theorem claim4_add_liquidity_branches (capital p0 p1 fee_swap fee_gas L : ℝ)
    (hcap : 0 < capital) (hp0 : 0 < p0) (hp1 : 0 < p1) :
    add_liquidity capital 1 (p0, p1) fee_swap fee_gas =
      .ok ⟨(capital * (1.0 - fee_swap) / 2 / p0,
            capital * (1.0 - fee_swap) / 2 / p1), (0, 0), fee_gas⟩ ∧
    add_liquidity capital 2 (p0, p1) fee_swap fee_gas =
      .ok ⟨(capital * (1.0 - fee_swap) / p0, capital * (1.0 - fee_swap) / p1),
           (0, capital * (1.0 - fee_swap) / p1), 4 * fee_gas⟩ ∧
    (2 < L → ∃ lr, add_liquidity capital L (p0, p1) fee_swap fee_gas = .ok lr ∧
      lr.fees = 6 * fee_gas ∧
      lr.token_supply.1 * p0 = lr.token_supply.2 * p1 ∧
      lr.token_supply.1 * p0 + lr.token_supply.2 * p1 =
        L * (capital * (1.0 - fee_swap)) ∧
      lr.token_debt.1 * p0 + lr.token_debt.2 * p1 =
        (L - 1) * (capital * (1.0 - fee_swap)) ∧
      lr.token_debt.1 * p0 =
        1 / (L / (L - 2) + 1) * ((L - 1) * (capital * (1.0 - fee_swap)))) ∧
    (∃ lr3, add_liquidity 100 3 (p0, p1) 0 fee_gas = .ok lr3 ∧
      lr3.token_debt.1 * p0 = 50 ∧ lr3.token_debt.2 * p1 = 150 ∧
      lr3.fees = 6 * fee_gas) := by
  refine ⟨?_, ?_, ?_, ?_⟩
  · simp only [add_liquidity]
    norm_num
  · simp only [add_liquidity]
    norm_num
  · intro hL
    have hL1 : L ≠ 1 := by linarith
    have hL2 : L ≠ 2 := by linarith
    have hadd : add_liquidity capital L (p0, p1) fee_swap fee_gas =
        .ok ⟨(0.5 * L * (capital * (1.0 - fee_swap)) / p0,
              0.5 * L * (capital * (1.0 - fee_swap)) / p1),
             (capital * (1.0 - fee_swap) * (1 / (L / (L - 2) + 1)) * (L - 1) / p0,
              capital * (1.0 - fee_swap) * (1.0 - 1 / (L / (L - 2) + 1)) * (L - 1) / p1),
             6 * fee_gas⟩ := by
      simp only [add_liquidity]
      rw [if_neg hL1, if_neg hL2, if_pos hL]
    refine ⟨_, hadd, rfl, ?_, ?_, ?_, ?_⟩
    · show 0.5 * L * (capital * (1.0 - fee_swap)) / p0 * p0 =
        0.5 * L * (capital * (1.0 - fee_swap)) / p1 * p1
      rw [div_mul_cancel₀ _ hp0.ne', div_mul_cancel₀ _ hp1.ne']
    · show 0.5 * L * (capital * (1.0 - fee_swap)) / p0 * p0 +
        0.5 * L * (capital * (1.0 - fee_swap)) / p1 * p1 = _
      rw [div_mul_cancel₀ _ hp0.ne', div_mul_cancel₀ _ hp1.ne']
      ring
    · show capital * (1.0 - fee_swap) * (1 / (L / (L - 2) + 1)) * (L - 1) / p0 * p0 +
        capital * (1.0 - fee_swap) * (1.0 - 1 / (L / (L - 2) + 1)) * (L - 1) / p1 * p1 = _
      rw [div_mul_cancel₀ _ hp0.ne', div_mul_cancel₀ _ hp1.ne']
      ring
    · show capital * (1.0 - fee_swap) * (1 / (L / (L - 2) + 1)) * (L - 1) / p0 * p0 = _
      rw [div_mul_cancel₀ _ hp0.ne']
      ring
  · have hadd3 : add_liquidity 100 3 (p0, p1) 0 fee_gas =
        .ok ⟨(0.5 * 3 * (100 * (1.0 - 0)) / p0, 0.5 * 3 * (100 * (1.0 - 0)) / p1),
             (100 * (1.0 - 0) * (1 / (3 / (3 - 2) + 1)) * (3 - 1) / p0,
              100 * (1.0 - 0) * (1.0 - 1 / (3 / (3 - 2) + 1)) * (3 - 1) / p1),
             6 * fee_gas⟩ := by
      simp only [add_liquidity]
      rw [if_neg (by norm_num : (3 : ℝ) ≠ 1), if_neg (by norm_num : (3 : ℝ) ≠ 2),
        if_pos (by norm_num : (2 : ℝ) < 3)]
    refine ⟨_, hadd3, ?_, ?_, rfl⟩
    · show 100 * ((1.0:ℝ) - 0) * (1 / (3 / (3 - 2) + 1)) * (3 - 1) / p0 * p0 = 50
      rw [div_mul_cancel₀ _ hp0.ne']
      norm_num
    · show 100 * ((1.0:ℝ) - 0) * ((1.0:ℝ) - 1 / (3 / (3 - 2) + 1)) * (3 - 1) / p1 * p1 = 150
      rw [div_mul_cancel₀ _ hp1.ne']
      norm_num

/-- Witness for C4 at capital 100, prices (1, 2), zero swap fee, unit
gas fee, leverage 3. -/
theorem claim4_witness :
    (0 : ℝ) < 100 ∧ (0 : ℝ) < 1 ∧ (0 : ℝ) < 2 ∧
    (add_liquidity 100 1 (1, 2) 0 1 =
      .ok ⟨(100 * (1.0 - 0) / 2 / 1, 100 * (1.0 - 0) / 2 / 2), (0, 0), 1⟩ ∧
    add_liquidity 100 2 (1, 2) 0 1 =
      .ok ⟨(100 * (1.0 - 0) / 1, 100 * (1.0 - 0) / 2),
           (0, 100 * (1.0 - 0) / 2), 4 * 1⟩ ∧
    ((2 : ℝ) < 3 → ∃ lr, add_liquidity 100 3 (1, 2) 0 1 = .ok lr ∧
      lr.fees = 6 * 1 ∧
      lr.token_supply.1 * 1 = lr.token_supply.2 * 2 ∧
      lr.token_supply.1 * 1 + lr.token_supply.2 * 2 = 3 * (100 * (1.0 - 0)) ∧
      lr.token_debt.1 * 1 + lr.token_debt.2 * 2 = (3 - 1) * (100 * (1.0 - 0)) ∧
      lr.token_debt.1 * 1 =
        1 / (3 / (3 - 2) + 1) * ((3 - 1) * (100 * (1.0 - 0)))) ∧
    (∃ lr3, add_liquidity 100 3 (1, 2) 0 1 = .ok lr3 ∧
      lr3.token_debt.1 * 1 = 50 ∧ lr3.token_debt.2 * 2 = 150 ∧
      lr3.fees = 6 * 1)) :=
  ⟨by norm_num, by norm_num, by norm_num,
   claim4_add_liquidity_branches 100 1 2 0 1 3 (by norm_num) (by norm_num)
     (by norm_num)⟩

/-- C5: a leverage that is neither exactly 1 nor at least 2 makes
`add_liquidity` raise `ValueError` (no silent fallback), and a
simulation configured to open on start fails with that error already in
its pre-loop phase (`simInit`), so `simulate` returns the error and no
partial record list. -/
theorem claim5_invalid_leverage_fails_fast {σ : Type}
    (exec : TradingStrategyFn σ) (rewards_cls : RewardsFn) (strat0 : σ)
    (capital L p0 p1 fee_swap fee_gas : ℝ) (hd : Row) (tl : List Row)
    (rtp atf ar ab0 ab1 : Option ℝ) (hL1 : L ≠ 1) (hL2 : L < 2) :
    add_liquidity capital L (p0, p1) fee_swap fee_gas =
      .error .valueError ∧
    simInit (List.map (fillRow rtp atf ar ab0 ab1) (hd :: tl)) capital L
      fee_swap fee_gas true strat0 = .error .valueError ∧
    simulate exec rewards_cls (hd :: tl) capital L fee_gas fee_swap
      rtp atf ar ab0 ab1 true strat0 = .error .valueError := by
  have hL2' : L ≠ 2 := by linarith
  have hL3 : ¬ (2 : ℝ) < L := by linarith
  have hAdd : ∀ (c : ℝ) (pp : ℝ × ℝ),
      add_liquidity c L pp fee_swap fee_gas = .error .valueError := by
    intro c pp
    simp only [add_liquidity]
    rw [if_neg hL1, if_neg hL2', if_neg hL3]
  have hInit : simInit (List.map (fillRow rtp atf ar ab0 ab1) (hd :: tl))
      capital L fee_swap fee_gas true strat0 = .error .valueError := by
    simp only [List.map, simInit, if_pos, hAdd, pyBind]
  refine ⟨hAdd capital (p0, p1), hInit, ?_⟩
  simp only [simulate, hInit, pyBind]

/-- Witness for C5 at leverage 1.5 with a one-row table. -/
theorem claim5_witness :
    (3 / 2 : ℝ) ≠ 1 ∧ (3 / 2 : ℝ) < 2 ∧
    (add_liquidity 100 (3 / 2) (1, 1) 0 0 = .error .valueError ∧
    simInit (List.map (fillRow none none none none none)
        [Row.mk 1 1 (some 1) (some 0) (some 0) (some 0) (some 0)]) 100 (3 / 2)
      0 0 true () = .error .valueError ∧
    simulate HODLStrategy.execute (SellRewardsStrategy.execute 1)
      [Row.mk 1 1 (some 1) (some 0) (some 0) (some 0) (some 0)] 100 (3 / 2)
      0 0 none none none none none true () = .error .valueError) :=
  ⟨by norm_num, by norm_num,
   claim5_invalid_leverage_fails_fast HODLStrategy.execute
     (SellRewardsStrategy.execute 1) () 100 (3 / 2) 1 1 0 0
     (Row.mk 1 1 (some 1) (some 0) (some 0) (some 0) (some 0)) []
     none none none none none (by norm_num) (by norm_num)⟩

/-- C10: when the threshold-rebalance strategy triggers, the supply and
debt it returns are exactly the output of `add_liquidity` on the close
proceeds alone; the `(1 - amount)`-scaled remainder computed by the
partial close is dropped from the position. -/
theorem claim10_rebalance_discards_remainder (cfg : RebalanceConfig)
    (price_anchor : ℝ) (token_supply token_debt : ℝ × ℝ) (row : Row)
    (input_cash : ℝ) (tr : TradeResult ℝ)
    (hδ : cfg.threshold < |row.token1_price - price_anchor| / price_anchor)
    (hamt : cfg.amount < 1)
    (h : RebalanceStrategy.execute cfg price_anchor token_supply token_debt
      row input_cash = .ok tr) :
    ∃ opened,
      add_liquidity
        (remove_liquidity token_supply token_debt
          (row.token0_price, row.token1_price) cfg.amount cfg.fee_swap
          cfg.fee_gas).cash
        cfg.leverage (row.token0_price, row.token1_price) cfg.fee_swap
        cfg.fee_gas = .ok opened ∧
      tr.supply = opened.token_supply ∧ tr.debt = opened.token_debt ∧
      (remove_liquidity token_supply token_debt
        (row.token0_price, row.token1_price) cfg.amount cfg.fee_swap
        cfg.fee_gas).token_supply_remaining =
        (token_supply.1 * (1.0 - cfg.amount),
         token_supply.2 * (1.0 - cfg.amount)) ∧
      (remove_liquidity token_supply token_debt
        (row.token0_price, row.token1_price) cfg.amount cfg.fee_swap
        cfg.fee_gas).token_debt_remaining =
        (token_debt.1 * (1.0 - cfg.amount),
         token_debt.2 * (1.0 - cfg.amount)) := by
  rw [RebalanceStrategy.execute] at h
  simp only [if_pos hδ] at h
  cases hadd : add_liquidity
      (remove_liquidity token_supply token_debt
        (row.token0_price, row.token1_price) cfg.amount cfg.fee_swap
        cfg.fee_gas).cash
      cfg.leverage (row.token0_price, row.token1_price) cfg.fee_swap
      cfg.fee_gas with
  | error e => rw [hadd] at h; cases h
  | ok opened =>
    rw [hadd] at h
    have htr := (Except.ok.inj h).symm
    refine ⟨opened, rfl, ?_, ?_, rfl, rfl⟩
    · rw [htr]
    · rw [htr]

/-- Witness for C10: a half close (`amount = 1/2`) of supply `(10, 5)`,
debt `(0, 5)` at prices `(1, 2)` frees $5 of cash; the reopened 2X
position is `(5, 5/2)` supply with `(0, 5/2)` debt, and the retained
halves `(5, 5/2)` / `(0, 5/2)` of the old position are discarded. -/
theorem claim10_witness :
    ((⟨1 / 10, 2, 1 / 2, 0, 0⟩ : RebalanceConfig).threshold <
      |rebalanceRow.token1_price - 1| / 1) ∧
    ((⟨1 / 10, 2, 1 / 2, 0, 0⟩ : RebalanceConfig).amount < 1) ∧
    (∃ opened,
      add_liquidity
        (remove_liquidity (10, 5) (0, 5)
          (rebalanceRow.token0_price, rebalanceRow.token1_price) (1 / 2) 0
          0).cash
        2 (rebalanceRow.token0_price, rebalanceRow.token1_price) 0 0 =
        .ok opened ∧
      ((5 : ℝ), (5 / 2 : ℝ)) = opened.token_supply ∧
      ((0 : ℝ), (5 / 2 : ℝ)) = opened.token_debt ∧
      (remove_liquidity (10, 5) (0, 5)
        (rebalanceRow.token0_price, rebalanceRow.token1_price) (1 / 2) 0
        0).token_supply_remaining =
        ((10 : ℝ) * (1.0 - 1 / 2), (5 : ℝ) * (1.0 - 1 / 2)) ∧
      (remove_liquidity (10, 5) (0, 5)
        (rebalanceRow.token0_price, rebalanceRow.token1_price) (1 / 2) 0
        0).token_debt_remaining =
        ((0 : ℝ) * (1.0 - 1 / 2), (5 : ℝ) * (1.0 - 1 / 2))) := by
  have hex : RebalanceStrategy.execute ⟨1 / 10, 2, 1 / 2, 0, 0⟩ 1 (10, 5)
      (0, 5) rebalanceRow 7 =
      .ok ⟨(5, 5 / 2), (0, 5 / 2), 7, 0, some 1, 2⟩ := by
    simp only [RebalanceStrategy.execute, remove_liquidity, add_liquidity,
      rebalanceRow]
    norm_num [pyBind]
  exact ⟨by norm_num [rebalanceRow], by norm_num,
    claim10_rebalance_discards_remainder ⟨1 / 10, 2, 1 / 2, 0, 0⟩ 1 (10, 5)
      (0, 5) rebalanceRow 7 ⟨(5, 5 / 2), (0, 5 / 2), 7, 0, some 1, 2⟩
      (by norm_num [rebalanceRow]) (by norm_num) hex⟩

/-- Selling a zero reward balance yields no tokens and no cash in
either branch of `sell_rewards`; only the gas fee of the sell
transaction is charged, and only when the sell fraction is positive. -/
theorem sell_rewards_zero (reward_price : ℝ) (pool_tokens : ℝ × ℝ)
    (amount fee_swap fee_gas : ℝ) :
    sell_rewards 0 reward_price pool_tokens amount fee_swap fee_gas =
      (0, pool_tokens, 0, if amount ≤ 0 then 0 else fee_gas * 1.0) := by
  unfold sell_rewards
  split_ifs with h
  · rfl
  · norm_num

/-- A balanced pool (equal dollar value on both sides) is a fixed point
of the constant-product repricing at the unchanged price ratio. -/
theorem iloss_amt_fixed (s0 s1 p0 p1 : ℝ) (hs0 : 0 ≤ s0) (hs1 : 0 ≤ s1)
    (hp0 : 0 < p0) (hp1 : 0 < p1) (hbal : s0 * p0 = s1 * p1) :
    iloss_amt (s0 * s1) (p1 / p0) = (s0, s1) := by
  unfold iloss_amt
  have h1 : s0 * s1 * (p1 / p0) = s0 ^ 2 := by
    field_simp
    linear_combination s0 * hbal.symm
  have h2 : s0 * s1 / (p1 / p0) = s1 ^ 2 := by
    rw [div_div_eq_mul_div, div_eq_iff hp1.ne']
    linear_combination s1 * hbal
  rw [h1, h2, Real.sqrt_sq hs0, Real.sqrt_sq hs1]

/-- One steady epoch: with constant prices, zero APYs, the pass-through
trading strategy and the sell-rewards strategy, the epoch closes
exactly on its opening supplies and debts for any fee settings and any
accumulated cash, fees and reward tokens, and records zero impermanent
loss; the books change only by the sell transaction's gas fee (not at
all when the gas fee is zero). -/
theorem epochStep_steady
    (amt capital p0 p1 rtp s0 s1 d0 d1 fs g cash fees rwds : ℝ)
    (abc0 abc1 : Option ℝ)
    (hp0 : 0 < p0) (hp1 : 0 < p1) (hs0 : 0 ≤ s0) (hs1 : 0 ≤ s1)
    (hbal : s0 * p0 = s1 * p1) :
    ∃ fees',
      epochStep HODLStrategy.execute (SellRewardsStrategy.execute amt)
        capital (p1 / p0) fs g (some 0) (some 0)
        ⟨s0, s1, d0, d1, cash, fees, rwds, ()⟩
        ⟨p0, p1, some rtp, some 0, some 0, abc0, abc1⟩ =
      .ok (⟨s0, s1, d0, d1, cash, fees', rwds, ()⟩,
           steadyRecord capital p0 p1 rtp s0 s1 d0 d1 cash fees' rwds) ∧
      (g = 0 → fees' = fees) := by
  have hfix : iloss_amt (s0 * s1) (p1 / p0) = (s0, s1) :=
    iloss_amt_fixed s0 s1 p0 p1 hs0 hs1 hp0 hp1 hbal
  have hratio : (p1 / p0) / (p1 / p0) = 1 := div_self (by positivity)
  refine ⟨fees + (if amt ≤ 0 then 0 else g * 1.0), ?_,
    fun hg => by rw [hg]; split_ifs <;> norm_num⟩
  simp only [epochStep, pyBind, colVal, argVal, HODLStrategy.execute,
    SellRewardsStrategy.execute, steadyRecord, hfix]
  norm_num [hratio, Real.sqrt_one, Real.exp_zero, sell_rewards_zero,
    Prod.fst_zero, Prod.snd_zero]

/-- Iterating steady epochs: for any fee settings the closing supplies
and debts never move and every epoch records zero impermanent loss;
when the gas fee is zero the books do not move either, and every
epoch's `profit_value` is pool equity plus the other books minus the
initial capital. -/
theorem runLoop_steady (amt capital p0 p1 rtp s0 s1 d0 d1 fs g : ℝ)
    (hp0 : 0 < p0) (hp1 : 0 < p1) (hs0 : 0 ≤ s0) (hs1 : 0 ≤ s1)
    (hbal : s0 * p0 = s1 * p1) :
    ∀ (n : Nat) (cash fees rwds : ℝ),
      ∃ recs stf,
        runLoop HODLStrategy.execute (SellRewardsStrategy.execute amt)
          capital (p1 / p0) fs g (some 0) (some 0)
          ⟨s0, s1, d0, d1, cash, fees, rwds, ()⟩
          (List.replicate n (zeroApyRow p0 p1 (some rtp))) =
          .ok (recs, stf) ∧
        recs.length = n ∧
        (∀ rec ∈ recs,
          rec.token0_supply_close = s0 ∧ rec.token1_supply_close = s1 ∧
          rec.token0_debt_close = d0 ∧ rec.token1_debt_close = d1 ∧
          rec.iloss = 0) ∧
        (g = 0 → ∀ rec ∈ recs,
          rec.profit_value =
            p0 * s0 + p1 * s1 + rwds * rtp + cash - fees -
              (d0 * p0 + d1 * p1) - capital) := by
  intro n
  induction n with
  | zero =>
    intro cash fees rwds
    exact ⟨[], ⟨s0, s1, d0, d1, cash, fees, rwds, ()⟩, rfl, rfl,
      by simp, fun _ => by simp⟩
  | succ n ih =>
    intro cash fees rwds
    obtain ⟨fees', hstep, hfe⟩ := epochStep_steady amt capital p0 p1 rtp s0
      s1 d0 d1 fs g cash fees rwds (some 0) (some 0) hp0 hp1 hs0 hs1 hbal
    obtain ⟨recs, stf, hrun, hlen, hprops, hprofit⟩ := ih cash fees' rwds
    refine ⟨steadyRecord capital p0 p1 rtp s0 s1 d0 d1 cash fees' rwds ::
      recs, stf, ?_, by simp [hlen], ?_, ?_⟩
    · rw [List.replicate_succ]
      simp only [zeroApyRow] at hrun ⊢
      simp only [runLoop, hstep, pyBind_ok, hrun]
    · intro rec hrec
      rcases List.mem_cons.mp hrec with rfl | hmem
      · exact ⟨rfl, rfl, rfl, rfl, rfl⟩
      · exact hprops rec hmem
    · intro hg rec hrec
      have hfe0 := hfe hg
      rcases List.mem_cons.mp hrec with rfl | hmem
      · show p0 * s0 + p1 * s1 + rwds * rtp + cash - fees' -
          (d0 * p0 + d1 * p1) - capital = _
        rw [hfe0]
      · rw [hprofit hg rec hmem, hfe0]

/-- Every supported leverage opens a position whose two sides carry
equal dollar value, with nonnegative supplies (for a swap fee at most
1), pool equity exactly the post-swap-fee capital, and opening fees
that vanish when the gas fee is zero. -/
theorem add_liquidity_balanced (capital p0 p1 L fee_swap fee_gas : ℝ)
    (hp0 : 0 < p0) (hp1 : 0 < p1) (hcap : 0 ≤ capital) (hfs : fee_swap ≤ 1)
    (hL : L = 1 ∨ L = 2 ∨ 2 < L) :
    ∃ lr, add_liquidity capital L (p0, p1) fee_swap fee_gas = .ok lr ∧
      0 ≤ lr.token_supply.1 ∧ 0 ≤ lr.token_supply.2 ∧
      lr.token_supply.1 * p0 = lr.token_supply.2 * p1 ∧
      p0 * lr.token_supply.1 + p1 * lr.token_supply.2 -
        (lr.token_debt.1 * p0 + lr.token_debt.2 * p1) =
        capital * (1.0 - fee_swap) ∧
      (fee_gas = 0 → lr.fees = 0) := by
  have hc : (0 : ℝ) ≤ capital * (1.0 - fee_swap) :=
    mul_nonneg hcap (by norm_num; linarith)
  rcases hL with hL | hL | hL
  · subst hL
    have hadd : add_liquidity capital 1 (p0, p1) fee_swap fee_gas =
        .ok ⟨(capital * (1.0 - fee_swap) / 2 / p0,
              capital * (1.0 - fee_swap) / 2 / p1), (0, 0), fee_gas⟩ := by
      simp only [add_liquidity]
      norm_num
    refine ⟨_, hadd, ?_, ?_, ?_, ?_, fun hg => hg⟩
    · exact div_nonneg (div_nonneg hc (by norm_num)) hp0.le
    · exact div_nonneg (div_nonneg hc (by norm_num)) hp1.le
    · show capital * (1.0 - fee_swap) / 2 / p0 * p0 =
        capital * (1.0 - fee_swap) / 2 / p1 * p1
      rw [div_mul_cancel₀ _ hp0.ne', div_mul_cancel₀ _ hp1.ne']
    · show p0 * (capital * (1.0 - fee_swap) / 2 / p0) +
        p1 * (capital * (1.0 - fee_swap) / 2 / p1) - (0 * p0 + 0 * p1) =
        capital * (1.0 - fee_swap)
      field_simp
      ring
  · subst hL
    have hadd : add_liquidity capital 2 (p0, p1) fee_swap fee_gas =
        .ok ⟨(capital * (1.0 - fee_swap) / p0,
              capital * (1.0 - fee_swap) / p1),
             (0, capital * (1.0 - fee_swap) / p1), 4 * fee_gas⟩ := by
      simp only [add_liquidity]
      norm_num
    refine ⟨_, hadd, ?_, ?_, ?_, ?_, fun hg => by rw [hg]; norm_num⟩
    · exact div_nonneg hc hp0.le
    · exact div_nonneg hc hp1.le
    · show capital * (1.0 - fee_swap) / p0 * p0 =
        capital * (1.0 - fee_swap) / p1 * p1
      rw [div_mul_cancel₀ _ hp0.ne', div_mul_cancel₀ _ hp1.ne']
    · show p0 * (capital * (1.0 - fee_swap) / p0) +
        p1 * (capital * (1.0 - fee_swap) / p1) -
        (0 * p0 + capital * (1.0 - fee_swap) / p1 * p1) =
        capital * (1.0 - fee_swap)
      field_simp
  · have hL1 : L ≠ 1 := by linarith
    have hL2 : L ≠ 2 := by linarith
    have hL0 : (0 : ℝ) ≤ L := by linarith
    have hadd : add_liquidity capital L (p0, p1) fee_swap fee_gas =
        .ok ⟨(0.5 * L * (capital * (1.0 - fee_swap)) / p0,
              0.5 * L * (capital * (1.0 - fee_swap)) / p1),
             (capital * (1.0 - fee_swap) * (1 / (L / (L - 2) + 1)) * (L - 1) /
                p0,
              capital * (1.0 - fee_swap) *
                  (1.0 - 1 / (L / (L - 2) + 1)) * (L - 1) / p1),
             6 * fee_gas⟩ := by
      simp only [add_liquidity]
      rw [if_neg hL1, if_neg hL2, if_pos hL]
    refine ⟨_, hadd, ?_, ?_, ?_, ?_, fun hg => by rw [hg]; norm_num⟩
    · exact div_nonneg (mul_nonneg (mul_nonneg (by norm_num) hL0) hc) hp0.le
    · exact div_nonneg (mul_nonneg (mul_nonneg (by norm_num) hL0) hc) hp1.le
    · show 0.5 * L * (capital * (1.0 - fee_swap)) / p0 * p0 =
        0.5 * L * (capital * (1.0 - fee_swap)) / p1 * p1
      rw [div_mul_cancel₀ _ hp0.ne', div_mul_cancel₀ _ hp1.ne']
    · show p0 * (0.5 * L * (capital * (1.0 - fee_swap)) / p0) +
        p1 * (0.5 * L * (capital * (1.0 - fee_swap)) / p1) -
        (capital * (1.0 - fee_swap) * (1 / (L / (L - 2) + 1)) * (L - 1) / p0 *
            p0 +
         capital * (1.0 - fee_swap) * (1.0 - 1 / (L / (L - 2) + 1)) * (L - 1) /
            p1 * p1) =
        capital * (1.0 - fee_swap)
      rw [div_mul_cancel₀ _ hp0.ne', div_mul_cancel₀ _ hp1.ne']
      field_simp
      ring

/-- C2, amended: with a constant price table, all APYs zero and the
pass-through trading strategy, the closing token supplies and debts
equal the opened position's in every epoch and `iloss = 0` in every
record, for any gas fee and any swap fee at most 1 (the documented
range); `profit_value = 0` additionally requires — as the
counterexample forces — zero swap and gas fees, since those fees are a
permanent drag on equity. -/
theorem claim2_amended_no_change_idempotent
    (capital p0 p1 rtp amt L fee_swap fee_gas : ℝ) (n : Nat)
    (hp0 : 0 < p0) (hp1 : 0 < p1) (hrtp : 0 < rtp) (hcap : 0 ≤ capital)
    (hfs : fee_swap ≤ 1) (hL : L = 1 ∨ L = 2 ∨ 2 < L) (hn : n ≠ 0) :
    ∃ lr recs,
      add_liquidity capital L (p0, p1) fee_swap fee_gas = .ok lr ∧
      simulate HODLStrategy.execute (SellRewardsStrategy.execute amt)
        (List.replicate n (zeroApyRow p0 p1 (some rtp))) capital L fee_gas
        fee_swap none none none (some 0) (some 0) true () = .ok recs ∧
      recs.length = n ∧
      (∀ rec ∈ recs,
        rec.token0_supply_close = lr.token_supply.1 ∧
        rec.token1_supply_close = lr.token_supply.2 ∧
        rec.token0_debt_close = lr.token_debt.1 ∧
        rec.token1_debt_close = lr.token_debt.2 ∧
        rec.iloss = 0) ∧
      (fee_swap = 0 → fee_gas = 0 →
        ∀ rec ∈ recs, rec.profit_value = 0) := by
  obtain ⟨m, rfl⟩ : ∃ m, n = m + 1 :=
    ⟨n - 1, (Nat.succ_pred_eq_of_pos (Nat.pos_of_ne_zero hn)).symm⟩
  obtain ⟨lr, hadd, hs0, hs1, hbal, heq, hfg⟩ :=
    add_liquidity_balanced capital p0 p1 L fee_swap fee_gas hp0 hp1 hcap hfs
      hL
  obtain ⟨recs, stf, hrun, hlen, hprops, hprofit⟩ :=
    runLoop_steady amt capital p0 p1 rtp lr.token_supply.1 lr.token_supply.2
      lr.token_debt.1 lr.token_debt.2 fee_swap fee_gas hp0 hp1 hs0 hs1 hbal
      (m + 1) 0 lr.fees 0
  refine ⟨lr, recs, hadd, ?_, hlen, hprops, ?_⟩
  · have hfill : List.map (fillRow none none none (some 0) (some 0))
        (List.replicate (m + 1) (zeroApyRow p0 p1 (some rtp))) =
        List.replicate (m + 1) (zeroApyRow p0 p1 (some rtp)) := by
      simp [fillRow, fillCol, zeroApyRow, List.map_replicate]
    have hinit : simInit (List.replicate (m + 1) (zeroApyRow p0 p1 (some rtp)))
        capital L fee_swap fee_gas true () =
        .ok ⟨p0, p1, p1 / p0,
             ⟨lr.token_supply.1, lr.token_supply.2, lr.token_debt.1,
              lr.token_debt.2, 0, lr.fees, 0, ()⟩⟩ := by
      rw [List.replicate_succ]
      simp only [simInit, zeroApyRow, if_pos, hadd, pyBind]
    simp only [simulate, hfill, hinit, pyBind_ok]
    rw [hrun]
    rfl
  · intro hfs0 hfg0 rec hrec
    have h1 := hprofit hfg0 rec hrec
    have h2 := hfg hfg0
    subst hfs0
    rw [h1, h2]
    norm_num at heq ⊢
    linarith

/-- C2, counterexample: a run satisfying the claim's premises (constant
prices, all APYs zero, passive trading strategy) but with the nonzero
swap fee the claim quantifies over (`fee_swap = 1/2`) records
`profit_value = -50`, not 0: the swap fee on opening is a permanent
loss against the initial capital. -/
theorem claim2_counterexample :
    profitColumn (simulate HODLStrategy.execute
      (SellRewardsStrategy.execute 1) [zeroApyRow 1 1 (some 1)] 100 1 0
      (1 / 2) none none none (some 0) (some 0) true ()) = some [-50] ∧
    (-50 : ℝ) ≠ 0 := by
  constructor
  · have hadd : add_liquidity 100 1 (1, 1) (1 / 2) 0 =
        .ok ⟨(25, 25), (0, 0), 0⟩ := by
      simp only [add_liquidity]
      norm_num
    have hfill : List.map (fillRow none none none (some 0) (some 0))
        [zeroApyRow 1 1 (some 1)] = [zeroApyRow 1 1 (some 1)] := by
      simp [fillRow, fillCol, zeroApyRow]
    have hinit : simInit [zeroApyRow 1 1 (some 1)] 100 1 (1 / 2) 0 true () =
        .ok ⟨1, 1, 1 / 1, ⟨25, 25, 0, 0, 0, 0, 0, ()⟩⟩ := by
      simp only [simInit, zeroApyRow, if_pos, hadd, pyBind]
    obtain ⟨recs, stf, hrun, hlen, hprops, hprofit⟩ :=
      runLoop_steady 1 100 1 1 1 25 25 0 0 (1 / 2) 0 (by norm_num)
        (by norm_num) (by norm_num) (by norm_num) (by norm_num) 1 0 0 0
    obtain ⟨r, rfl⟩ := List.length_eq_one.mp hlen
    have hp := hprofit rfl r (by simp)
    simp only [simulate, hfill, hinit, pyBind_ok]
    rw [show ([zeroApyRow 1 1 (some 1)] : List Row) =
      List.replicate 1 (zeroApyRow 1 1 (some 1)) from rfl]
    rw [hrun]
    simp only [pyBind_ok, profitColumn, Except.toOption, Option.map,
      List.map]
    rw [hp]
    norm_num
  · norm_num

/-- Witness for C2's amended theorem: a one-epoch zero-fee run at
leverage 2 with constant unit prices. -/
theorem claim2_witness :
    ((0 : ℝ) < 1 ∧ (0 : ℝ) ≤ 100 ∧ (0 : ℝ) ≤ 1 ∧
      ((2 : ℝ) = 1 ∨ (2 : ℝ) = 2 ∨ (2 : ℝ) < 2) ∧ (1 : Nat) ≠ 0) ∧
    (∃ lr recs, add_liquidity 100 2 (1, 1) 0 0 = .ok lr ∧
      simulate HODLStrategy.execute (SellRewardsStrategy.execute 1)
        (List.replicate 1 (zeroApyRow 1 1 (some 1))) 100 2 0 0
        none none none (some 0) (some 0) true () = .ok recs ∧
      recs.length = 1 ∧
      (∀ rec ∈ recs,
        rec.token0_supply_close = lr.token_supply.1 ∧
        rec.token1_supply_close = lr.token_supply.2 ∧
        rec.token0_debt_close = lr.token_debt.1 ∧
        rec.token1_debt_close = lr.token_debt.2 ∧
        rec.iloss = 0) ∧
      ((0 : ℝ) = 0 → (0 : ℝ) = 0 → ∀ rec ∈ recs, rec.profit_value = 0)) :=
  ⟨⟨by norm_num, by norm_num, by norm_num, by norm_num, by norm_num⟩,
   claim2_amended_no_change_idempotent 100 1 1 1 1 2 0 0 1 (by norm_num)
     (by norm_num) (by norm_num) (by norm_num) (by norm_num) (by norm_num)
     (by norm_num)⟩

/-- C3: the loop compounds debt with the run-level scalar borrow-APY
arguments, not the row's borrow-APY columns.  With the columns present
(value 1) but no scalar overrides, the first epoch crashes with a
`TypeError` (`None * 1.0`); with scalar overrides 0 the closing token1
debt stays 100 even though the row's column value 1 would have
compounded it by `exp (1 / 365.25) ≠ 1`. -/
theorem claim3_borrow_apy_from_argument_not_row :
    simulate HODLStrategy.execute (SellRewardsStrategy.execute 1)
      [borrowApyRow] 100 2 0 0 none none none none none true () =
      .error .typeError ∧
    debt1Column (simulate HODLStrategy.execute
      (SellRewardsStrategy.execute 1) [borrowApyRow] 100 2 0 0
      none none none (some 0) (some 0) true ()) = some [100] ∧
    Real.exp (1 * 1.0 / 365.25) ≠ 1 := by
  have hadd : add_liquidity 100 2 (1, 1) 0 0 =
      .ok ⟨(100, 100), (0, 100), 0⟩ := by
    simp only [add_liquidity]
    norm_num
  have hinit : simInit [borrowApyRow] 100 2 0 0 true () =
      .ok ⟨1, 1, 1 / 1, ⟨100, 100, 0, 100, 0, 0, 0, ()⟩⟩ := by
    simp only [simInit, borrowApyRow, if_pos, hadd, pyBind]
  refine ⟨?_, ?_, ?_⟩
  · have hfill1 : fillRow none none none none none borrowApyRow =
        borrowApyRow := by
      simp [fillRow, fillCol, borrowApyRow]
    simp only [simulate, List.map_cons, List.map_nil, hfill1, hinit, runLoop,
      pyBind, epochStep, colVal, argVal,
      show borrowApyRow.reward_token_price = some 1 from rfl,
      show borrowApyRow.apy_trading_fee = some 0 from rfl,
      show borrowApyRow.apy_reward = some 0 from rfl]
  · have hfill1 : fillRow none none none (some 0) (some 0) borrowApyRow =
        borrowApyRow := by
      simp [fillRow, fillCol, borrowApyRow]
    obtain ⟨fees', hstep, hfe⟩ := epochStep_steady 1 100 1 1 1 100 100 0 100
      0 0 0 0 0 (some 1) (some 1) (by norm_num) (by norm_num) (by norm_num)
      (by norm_num) (by norm_num)
    have hfe0 := hfe rfl
    subst hfe0
    rw [show (⟨1, 1, some 1, some 0, some 0, some 1, some 1⟩ : Row) =
      borrowApyRow from rfl] at hstep
    simp only [simulate, List.map_cons, List.map_nil, hfill1, hinit, runLoop,
      pyBind] 
    rw [hstep]
    simp [debt1Column, steadyRecord]
    exact ⟨_, rfl, rfl⟩
  · rw [show (1 : ℝ) * 1.0 / 365.25 = 1 / 365.25 by norm_num]
    simp only [ne_eq, Real.exp_eq_one_iff]
    norm_num

/-- C8, amended: a required exogenous column absent with no scalar
override is a fatal input error, but it surfaces on the first epoch of
the loop (a `KeyError` on the row access), not before the loop begins:
whenever the pre-loop phase itself succeeds, the run still returns the
error, and — the exception aborting the function — no partial record
list is produced. -/
theorem claim8_amended_missing_column_fatal {σ : Type}
    (exec : TradingStrategyFn σ) (rewards_cls : RewardsFn) (strat0 : σ)
    (hd : Row) (tl : List Row) (capital L fee_swap fee_gas : ℝ)
    (atf ar ab0 ab1 : Option ℝ) (ini : InitResult σ)
    (hmiss : hd.reward_token_price = none)
    (hini : simInit (List.map (fillRow none atf ar ab0 ab1) (hd :: tl))
      capital L fee_swap fee_gas true strat0 = .ok ini) :
    simulate exec rewards_cls (hd :: tl) capital L fee_gas fee_swap
      none atf ar ab0 ab1 true strat0 = .error .keyError := by
  simp only [simulate]
  rw [hini]
  simp only [pyBind, List.map_cons, runLoop, epochStep, fillRow, fillCol,
    hmiss, colVal]

/-- C8, counterexample to the claim as stated: with the
`reward_token_price` column absent and no override, the pre-loop phase
(`simInit`) succeeds — the error is *not* surfaced before the epoch
loop begins — while the run as a whole fails with the `KeyError` on the
first epoch. -/
theorem claim8_counterexample :
    simInit (List.map (fillRow none none none none none)
        [zeroApyRow 1 1 none]) 100 1 0 0 true () =
      .ok ⟨1, 1, 1 / 1, ⟨50, 50, 0, 0, 0, 0, 0, ()⟩⟩ ∧
    simulate HODLStrategy.execute (SellRewardsStrategy.execute 1)
      [zeroApyRow 1 1 none] 100 1 0 0 none none none none none true () =
      .error .keyError := by
  have hfill1 : fillRow none none none none none (zeroApyRow 1 1 none) =
      zeroApyRow 1 1 none := by
    simp [fillRow, fillCol, zeroApyRow]
  have hadd : add_liquidity 100 1 (1, 1) 0 0 = .ok ⟨(50, 50), (0, 0), 0⟩ := by
    simp only [add_liquidity]
    norm_num
  have hinit : simInit (List.map (fillRow none none none none none)
      [zeroApyRow 1 1 none]) 100 1 0 0 true () =
      .ok ⟨1, 1, 1 / 1, ⟨50, 50, 0, 0, 0, 0, 0, ()⟩⟩ := by
    simp only [List.map_cons, List.map_nil, simInit, zeroApyRow, fillRow,
      fillCol, if_pos, hadd, pyBind]
  have hinit2 : simInit [zeroApyRow 1 1 none] 100 1 0 0 true () =
      .ok ⟨1, 1, 1 / 1, ⟨50, 50, 0, 0, 0, 0, 0, ()⟩⟩ := by
    simp only [simInit, zeroApyRow, if_pos, hadd, pyBind]
  refine ⟨hinit, ?_⟩
  simp only [simulate, List.map_cons, List.map_nil, hfill1, hinit2, runLoop,
    pyBind, epochStep, colVal,
    show (zeroApyRow 1 1 none).reward_token_price = none from rfl]

/-- Witness for C8's amended theorem: a one-row table without a
`reward_token_price` column, no override, leverage 2. -/
theorem claim8_witness :
    (zeroApyRow 1 1 none).reward_token_price = none ∧
    simInit (List.map (fillRow none none none (some 0) (some 0))
        [zeroApyRow 1 1 none]) 200 2 0 0 true () =
      .ok ⟨1, 1, 1 / 1, ⟨200, 200, 0, 200, 0, 0, 0, ()⟩⟩ ∧
    simulate HODLStrategy.execute (SellRewardsStrategy.execute 1)
      [zeroApyRow 1 1 none] 200 2 0 0 none none none (some 0) (some 0) true
      () = .error .keyError := by
  have hfill1 : fillRow none none none (some 0) (some 0)
      (zeroApyRow 1 1 none) = zeroApyRow 1 1 none := by
    simp [fillRow, fillCol, zeroApyRow]
  have hadd : add_liquidity 200 2 (1, 1) 0 0 =
      .ok ⟨(200, 200), (0, 200), 0⟩ := by
    simp only [add_liquidity]
    norm_num
  have hini : simInit (List.map (fillRow none none none (some 0) (some 0))
      [zeroApyRow 1 1 none]) 200 2 0 0 true () =
      .ok ⟨1, 1, 1 / 1, ⟨200, 200, 0, 200, 0, 0, 0, ()⟩⟩ := by
    simp only [List.map_cons, List.map_nil, simInit, zeroApyRow, fillRow,
      fillCol, if_pos, hadd, pyBind]
  exact ⟨rfl, hini,
    claim8_amended_missing_column_fatal HODLStrategy.execute
      (SellRewardsStrategy.execute 1) () (zeroApyRow 1 1 none) [] 200 2 0 0
      none none (some 0) (some 0) ⟨1, 1, 1 / 1, ⟨200, 200, 0, 200, 0, 0, 0, ()⟩⟩
      rfl hini⟩

/-- `sell_rewards` passes the pool tokens through unchanged in both of
its branches. -/
theorem sell_rewards_pool_tokens (reward_tokens reward_price : ℝ)
    (pool_tokens : ℝ × ℝ) (amount fee_swap fee_gas : ℝ) :
    (sell_rewards reward_tokens reward_price pool_tokens amount fee_swap
      fee_gas).2.1 = pool_tokens := by
  unfold sell_rewards
  split_ifs <;> rfl


/-- Running `pyBind` to a value means the first computation produced a
value the continuation accepted. -/
theorem pyBind_ok_inv {α β : Type} (x : Except PyError α)
    (f : α → Except PyError β) (w : β) (h : pyBind x f = .ok w) :
    ∃ v, x = .ok v ∧ f v = .ok w := by
  cases x with
  | error e => exact absurd h (by simp [pyBind])
  | ok v => exact ⟨v, rfl, h⟩

/-- The driver's trade flag is true exactly when the strategy's output
supply or debt tuple differs componentwise from its input. -/
theorem trade_flag_iff (sin din oS oD : ℝ × ℝ) :
    ((if sin ≠ oS ∨ din ≠ oD then true else false) = true) ↔
      ¬(oS.1 = sin.1 ∧ oS.2 = sin.2 ∧ oD.1 = din.1 ∧ oD.2 = din.2) := by
  constructor
  · intro hif hQ
    have hS : sin = oS := Prod.ext hQ.1.symm hQ.2.1.symm
    have hD : din = oD := Prod.ext hQ.2.2.1.symm hQ.2.2.2.symm
    rw [if_neg (by push_neg; exact ⟨hS, hD⟩)] at hif
    cases hif
  · intro hQ
    have hP : sin ≠ oS ∨ din ≠ oD := by
      by_contra hnP
      push_neg at hnP
      exact hQ ⟨by rw [hnP.1], by rw [hnP.1], by rw [hnP.2], by rw [hnP.2]⟩
    rw [if_pos hP]

/-- C6, amended: under the threshold-rebalance strategy the driver
records `price_delta = |p1 - anchor| / anchor` in every epoch's
metadata; when the deviation does not exceed the threshold, the anchor
is unchanged, `trade_event` is false and supplies/debts pass through;
when it exceeds the threshold, the anchor moves to the current price
and — as the counterexample forces — `trade_event` is true exactly when
the close-and-reopen actually changed the supply or debt tuples (an
all-zero position rebalances without registering a trade event). -/
theorem claim6_amended_rebalance_trigger (cfg : RebalanceConfig)
    (amt capital ratio0 fee_swap fee_gas rtp atf ar a0 a1 : ℝ)
    (st : SimState ℝ) (row : Row) (st' : SimState ℝ) (rec : EpochRecord)
    (hr : row.reward_token_price = some rtp)
    (hatf : row.apy_trading_fee = some atf)
    (har : row.apy_reward = some ar)
    (h : epochStep (RebalanceStrategy.execute cfg)
      (SellRewardsStrategy.execute amt) capital ratio0 fee_swap fee_gas
      (some a0) (some a1) st row = .ok (st', rec)) :
    rec.price_delta = some (|row.token1_price - st.strat| / st.strat) ∧
    (¬ cfg.threshold < |row.token1_price - st.strat| / st.strat →
      st'.strat = st.strat ∧ rec.trade_event = false ∧
      rec.token0_supply_close = rec.token0_supply_open + rec.token0_earnings ∧
      rec.token1_supply_close = rec.token1_supply_open + rec.token1_earnings ∧
      rec.token0_debt_close = st.d0 * Real.exp (a0 * 1.0 / 365.25) ∧
      rec.token1_debt_close = st.d1 * Real.exp (a1 * 1.0 / 365.25)) ∧
    (cfg.threshold < |row.token1_price - st.strat| / st.strat →
      st'.strat = row.token1_price ∧
      (rec.trade_event = true ↔
        ¬(rec.token0_supply_close =
            rec.token0_supply_open + rec.token0_earnings ∧
          rec.token1_supply_close =
            rec.token1_supply_open + rec.token1_earnings ∧
          rec.token0_debt_close = st.d0 * Real.exp (a0 * 1.0 / 365.25) ∧
          rec.token1_debt_close = st.d1 * Real.exp (a1 * 1.0 / 365.25)))) := by
  simp only [epochStep, colVal, argVal, hr, hatf, har, pyBind_ok,
    SellRewardsStrategy.execute, sell_rewards_pool_tokens, add_zero] at h
  obtain ⟨tr, hex, hfin⟩ := pyBind_ok_inv _ _ _ h
  injection hfin with hpair
  injection hpair with hst hrec
  subst hst
  subst hrec
  simp only [RebalanceStrategy.execute] at hex
  by_cases hδ : cfg.threshold < |row.token1_price - st.strat| / st.strat
  · rw [if_pos hδ] at hex
    obtain ⟨opened, hadd, htr⟩ := pyBind_ok_inv _ _ _ hex
    have htr' := Except.ok.inj htr
    subst htr'
    refine ⟨rfl, fun hc => absurd hδ hc, fun _ => ⟨rfl, ?_⟩⟩
    exact trade_flag_iff _ _ _ _
  · rw [if_neg hδ] at hex
    have htr' := Except.ok.inj hex
    subst htr'
    refine ⟨rfl, fun _ => ⟨rfl, ?_, rfl, rfl, rfl, rfl⟩,
      fun hc => absurd hc hδ⟩
    rw [if_neg]
    push_neg
    exact ⟨rfl, rfl⟩

/-- C6, counterexample: an all-zero position (capital 0, leverage 2,
threshold 1/10, anchor 1) on a price path `1 → 23/20`.  The second
epoch is the first whose `price_delta` (3/20, recorded in the metadata)
exceeds the threshold, and the strategy does rebalance, but
`trade_event` is false on every epoch — closing and reopening a zero
position returns the unchanged zero supplies and debts — refuting
"`trade_event` is true exactly on the epoch where `price_delta` first
exceeds the threshold". -/
theorem claim6_counterexample :
    tradeEventColumn (simulate
      (RebalanceStrategy.execute ⟨1 / 10, 2, 1, 0, 0⟩)
      (SellRewardsStrategy.execute 1)
      [zeroApyRow 1 1 (some 1), zeroApyRow 1 (23 / 20) (some 1)] 0 2 0 0
      none none none (some 0) (some 0) true 1) = some [false, false] ∧
    priceDeltaColumn (simulate
      (RebalanceStrategy.execute ⟨1 / 10, 2, 1, 0, 0⟩)
      (SellRewardsStrategy.execute 1)
      [zeroApyRow 1 1 (some 1), zeroApyRow 1 (23 / 20) (some 1)] 0 2 0 0
      none none none (some 0) (some 0) true 1) =
      some [some 0, some (3 / 20)] ∧
    (1 : ℝ) / 10 < 3 / 20 := by
  have habs2 : |(3 : ℝ) / 20| = 3 / 20 := abs_of_nonneg (by norm_num)
  refine ⟨?_, ?_, by norm_num⟩ <;>
  · norm_num [simulate, List.map_cons, List.map_nil, fillRow, fillCol,
      zeroApyRow, simInit, add_liquidity, runLoop, epochStep, colVal, argVal,
      pyBind, iloss_amt, sell_rewards, remove_liquidity,
      RebalanceStrategy.execute, SellRewardsStrategy.execute,
      tradeEventColumn, priceDeltaColumn, Except.toOption, habs2, abs_zero,
      Real.sqrt_zero, Real.exp_zero]

/-- Witness for C6's amended theorem: a no-trigger epoch (anchor 1,
current price 1, threshold 1/10) of an all-zero position. -/
theorem claim6_witness :
    ((zeroApyRow 1 1 (some 1)).reward_token_price = some 1 ∧
     (zeroApyRow 1 1 (some 1)).apy_trading_fee = some 0 ∧
     (zeroApyRow 1 1 (some 1)).apy_reward = some 0) ∧
    ((some (0 : ℝ) = some (|(1 : ℝ) - 1| / 1)) ∧
     (¬ (1 : ℝ) / 10 < |(1 : ℝ) - 1| / 1 →
       (1 : ℝ) = 1 ∧ false = false ∧
       (0 : ℝ) = 0 + 0 ∧ (0 : ℝ) = 0 + 0 ∧
       (0 : ℝ) = 0 * Real.exp (0 * 1.0 / 365.25) ∧
       (0 : ℝ) = 0 * Real.exp (0 * 1.0 / 365.25)) ∧
     ((1 : ℝ) / 10 < |(1 : ℝ) - 1| / 1 →
       (1 : ℝ) = 1 ∧
       (false = true ↔
         ¬((0 : ℝ) = 0 + 0 ∧ (0 : ℝ) = 0 + 0 ∧
           (0 : ℝ) = 0 * Real.exp (0 * 1.0 / 365.25) ∧
           (0 : ℝ) = 0 * Real.exp (0 * 1.0 / 365.25))))) := by
  have hstep : epochStep (RebalanceStrategy.execute ⟨1 / 10, 2, 1, 0, 0⟩)
      (SellRewardsStrategy.execute 1) 0 1 0 0 (some 0) (some 0)
      ⟨0, 0, 0, 0, 0, 0, 0, 1⟩ (zeroApyRow 1 1 (some 1)) =
      .ok (⟨0, 0, 0, 0, 0, 0, 0, 1⟩,
           ⟨0, 0, 0, 0, 0, 0, 0, 0, 0, 0, 0, 0, 0, 0, 0, 0, 0, 0, 0, 0,
            false, some 0⟩) := by
    norm_num [epochStep, colVal, argVal, pyBind, iloss_amt, sell_rewards,
      remove_liquidity, RebalanceStrategy.execute,
      SellRewardsStrategy.execute, zeroApyRow, abs_zero, Real.sqrt_zero,
      Real.sqrt_one, Real.exp_zero]
  exact ⟨⟨rfl, rfl, rfl⟩,
    claim6_amended_rebalance_trigger ⟨1 / 10, 2, 1, 0, 0⟩ 1 0 1 0 0 1 0 0 0 0
      ⟨0, 0, 0, 0, 0, 0, 0, 1⟩ (zeroApyRow 1 1 (some 1))
      ⟨0, 0, 0, 0, 0, 0, 0, 1⟩
      ⟨0, 0, 0, 0, 0, 0, 0, 0, 0, 0, 0, 0, 0, 0, 0, 0, 0, 0, 0, 0, false,
       some 0⟩ rfl rfl rfl hstep⟩
